import Mathlib

/-!
Verification development for the personal_finance repository
(models.py and app.py): a shallow embedding of the MongoDB-backed
repository functions and of the startup schema/index reconciler
(initialize_app_data), together with theorems settling the claims
about them.

Modelling conventions:
* A BSON document is an association list Doc from field names to
  Values; Python dict insertion order is preserved (new keys are
  appended, assignment to an existing key replaces its value in place).
* BSON numbers (int/double) and dates are modelled as rationals
  (Value.vNum); Python int() truncation toward zero is ratTrunc.
* ObjectId / uuid4 generation is modelled by passing the fresh
  identifier explicitly as an argument, and datetime.utcnow() as an
  explicit now argument; generated ids are strings.
* A raised-and-propagated exception is Except.error (or Option.none);
  a function whose except clause swallows the error returns its
  Python default value instead.
-/

/-- BSON-ish values stored in documents. -/
inductive Value where
  | vStr (s : String)
  | vNum (q : ℚ)
  | vBool (b : Bool)
  | vNull
  | vList (l : List Value)

mutual

/-- Structural equality test on values (BSON equality). -/
def Value.beq : Value → Value → Bool
  | .vStr a, .vStr b => a == b
  | .vNum a, .vNum b => a == b
  | .vBool a, .vBool b => a == b
  | .vNull, .vNull => true
  | .vList a, .vList b => Value.beqList a b
  | _, _ => false

/-- Pointwise equality test on lists of values. -/
def Value.beqList : List Value → List Value → Bool
  | [], [] => true
  | a :: as, b :: bs => Value.beq a b && Value.beqList as bs
  | _, _ => false

end

mutual

theorem Value.eq_of_beq : {a b : Value} → Value.beq a b = true → a = b
  | .vStr _, .vStr _, h => by
      simp only [Value.beq, beq_iff_eq] at h; rw [h]
  | .vNum _, .vNum _, h => by
      simp only [Value.beq, beq_iff_eq] at h; rw [h]
  | .vBool _, .vBool _, h => by
      simp only [Value.beq, beq_iff_eq] at h; rw [h]
  | .vNull, .vNull, _ => rfl
  | .vList a, .vList b, h => by
      rw [Value.eqList_of_beq (a := a) (b := b) h]

theorem Value.eqList_of_beq : {a b : List Value} → Value.beqList a b = true → a = b
  | [], [], _ => rfl
  | x :: _, y :: _, h => by
      simp only [Value.beqList, Bool.and_eq_true] at h
      rw [Value.eq_of_beq h.1, Value.eqList_of_beq h.2]

end

mutual

theorem Value.beq_refl : (a : Value) → Value.beq a a = true
  | .vStr _ => by simp [Value.beq]
  | .vNum _ => by simp [Value.beq]
  | .vBool _ => by simp [Value.beq]
  | .vNull => rfl
  | .vList l => Value.beqList_refl l

theorem Value.beqList_refl : (l : List Value) → Value.beqList l l = true
  | [] => rfl
  | x :: xs => by
      simp only [Value.beqList, Bool.and_eq_true]
      exact ⟨Value.beq_refl x, Value.beqList_refl xs⟩

end

instance : DecidableEq Value := fun a b =>
  if h : Value.beq a b = true then .isTrue (Value.eq_of_beq h)
  else .isFalse (fun he => h (he ▸ Value.beq_refl a))

instance {α β : Type} [DecidableEq α] [DecidableEq β] : DecidableEq (Except α β) := fun a b =>
  match a, b with
  | .ok x, .ok y =>
      if h : x = y then .isTrue (by rw [h]) else .isFalse (by intro he; cases he; exact h rfl)
  | .error x, .error y =>
      if h : x = y then .isTrue (by rw [h]) else .isFalse (by intro he; cases he; exact h rfl)
  | .ok _, .error _ => .isFalse (by intro he; cases he)
  | .error _, .ok _ => .isFalse (by intro he; cases he)

/-- A MongoDB document: field names to values, in insertion order. -/
abbrev Doc := List (String × Value)

/-- Lookup of a key in a document, Python d.get(k) / d[k]. -/
def Doc.get (d : Doc) (k : String) : Option Value :=
  match d with
  | [] => none
  | (k', v) :: rest => if k' = k then some v else Doc.get rest k

/-- Key-membership test, Python k in d. -/
def Doc.contains (d : Doc) (k : String) : Bool :=
  match d with
  | [] => false
  | (k', _) :: rest => k' = k || Doc.contains rest k

/-- Python dict assignment d[k] = v: replaces the first binding of k
in place, or appends a new binding when k is absent. -/
def Doc.set (d : Doc) (k : String) (v : Value) : Doc :=
  match d with
  | [] => [(k, v)]
  | (k', v') :: rest => if k' = k then (k', v) :: rest else (k', v') :: Doc.set rest k v

/-- Python d.setdefault(k, v). -/
def Doc.setdefault (d : Doc) (k : String) (v : Value) : Doc :=
  if Doc.contains d k then d else d ++ [(k, v)]

/-- Removal of a key, the removal part of Python d.pop(k). -/
def Doc.remove (d : Doc) (k : String) : Doc :=
  match d with
  | [] => []
  | (k', v') :: rest => if k' = k then rest else (k', v') :: Doc.remove rest k

/-- Apply every field of u to d in order: the effect of a MongoDB
$set update with update document u. -/
def Doc.setMany (d : Doc) (u : Doc) : Doc :=
  match u with
  | [] => d
  | (k, v) :: rest => Doc.setMany (Doc.set d k v) rest

/-- A MongoDB equality filter: every filter field must be present in
the document with exactly the given value. -/
def docMatches (filter : Doc) (d : Doc) : Bool :=
  filter.all (fun kv => Doc.get d kv.1 == some kv.2)

/-- Python int() on a number: truncation toward zero. -/
def ratTrunc (q : ℚ) : Int :=
  q.num.tdiv (q.den : Int)

/-- Python int(v) on a document value; none models a raised TypeError
(the validator declares the relevant fields numeric, and numeric
strings are out of modelling scope). -/
def pyInt : Value → Option Int
  | .vNum q => some (ratTrunc q)
  | .vBool b => some (if b then 1 else 0)
  | _ => none

/-- Python str(v), used on stored identifiers; identifiers are
modelled as strings, so only the vStr case is exercised. -/
def pyStr : Value → String
  | .vStr s => s
  | .vBool b => if b then "True" else "False"
  | .vNull => "None"
  | .vNum q => toString q.num
  | .vList _ => ""

/-- Python str.lower(), for the ASCII identifiers and emails the
repository handles. -/
def pyLower (s : String) : String :=
  ⟨s.data.map Char.toLower⟩

/-- Numeric sort key of a document (creation/update timestamps are
modelled as numbers; a missing or non-numeric key sorts as 0). -/
def keyNum (k : String) (d : Doc) : ℚ :=
  match Doc.get d k with
  | some (.vNum q) => q
  | _ => 0

/-- Insert a document into a descending-ordered list (stable). -/
def insertDesc (k : String) (d : Doc) : List Doc → List Doc
  | [] => [d]
  | e :: rest => if keyNum k d ≥ keyNum k e then d :: e :: rest else e :: insertDesc k d rest

/-- Insertion sort, descending on a numeric field: sort(k, DESCENDING). -/
def sortByNumDesc (k : String) : List Doc → List Doc
  | [] => []
  | d :: rest => insertDesc k d (sortByNumDesc k rest)

/-- Insert a document into an ascending-ordered list (stable). -/
def insertAsc (k : String) (d : Doc) : List Doc → List Doc
  | [] => [d]
  | e :: rest => if keyNum k d ≤ keyNum k e then d :: e :: rest else e :: insertAsc k d rest

/-- Insertion sort, ascending on a numeric field: sort(k, ASCENDING). -/
def sortByNumAsc (k : String) : List Doc → List Doc
  | [] => []
  | d :: rest => insertAsc k d (sortByNumAsc k rest)

-- Basic lemmas about document operations.

theorem Doc.get_set_self (d : Doc) (k : String) (v : Value) :
    Doc.get (Doc.set d k v) k = some v := by
  induction d with
  | nil => simp [Doc.set, Doc.get]
  | cons kv rest ih =>
      by_cases h : kv.1 = k
      · simp [Doc.set, Doc.get, h]
      · simp [Doc.set, Doc.get, h, ih]

theorem Doc.get_set_ne (d : Doc) (k k' : String) (v : Value) (h : k ≠ k') :
    Doc.get (Doc.set d k v) k' = Doc.get d k' := by
  induction d with
  | nil => simp [Doc.set, Doc.get, h]
  | cons kv rest ih =>
      by_cases hk : kv.1 = k
      · simp [Doc.set, Doc.get, hk, h]
      · simp [Doc.set, Doc.get, hk, ih]

theorem Doc.contains_set_ne (d : Doc) (k k' : String) (v : Value) (h : k ≠ k') :
    Doc.contains (Doc.set d k v) k' = Doc.contains d k' := by
  induction d with
  | nil => simp [Doc.set, Doc.contains, h]
  | cons kv rest ih =>
      by_cases hk : kv.1 = k
      · simp [Doc.set, Doc.contains, hk, h]
      · simp [Doc.set, Doc.contains, hk, ih]

theorem Doc.get_eq_none_of_not_contains {d : Doc} {k : String}
    (h : Doc.contains d k = false) : Doc.get d k = none := by
  induction d with
  | nil => rfl
  | cons kv rest ih =>
      simp only [Doc.contains, Bool.or_eq_false_iff, decide_eq_false_iff_not] at h
      simp [Doc.get, h.1, ih h.2]

theorem Doc.contains_of_get_eq_some {d : Doc} {k : String} {v : Value}
    (h : Doc.get d k = some v) : Doc.contains d k = true := by
  induction d with
  | nil => simp [Doc.get] at h
  | cons kv rest ih =>
      by_cases hk : kv.1 = k
      · simp [Doc.contains, hk]
      · simp only [Doc.get, hk, if_false] at h
        simp [Doc.contains, ih h]

theorem Doc.get_append_left {d : Doc} {k : String} {v : Value} (d₂ : Doc)
    (h : Doc.get d k = some v) : Doc.get (d ++ d₂) k = some v := by
  induction d with
  | nil => simp [Doc.get] at h
  | cons kv rest ih =>
      by_cases hk : kv.1 = k
      · simp only [Doc.get, hk, if_true] at h
        simp [Doc.get, hk, h]
      · simp only [Doc.get, hk, if_false] at h
        simp [Doc.get, hk, ih h]

theorem Doc.get_append_right {d : Doc} {k : String} (d₂ : Doc)
    (h : Doc.contains d k = false) : Doc.get (d ++ d₂) k = Doc.get d₂ k := by
  induction d with
  | nil => simp
  | cons kv rest ih =>
      simp only [Doc.contains, Bool.or_eq_false_iff, decide_eq_false_iff_not] at h
      simp [Doc.get, h.1, ih h.2]

theorem Doc.contains_append (d d₂ : Doc) (k : String) :
    Doc.contains (d ++ d₂) k = (Doc.contains d k || Doc.contains d₂ k) := by
  induction d with
  | nil => simp [Doc.contains]
  | cons kv rest ih => simp [Doc.contains, ih, Bool.or_assoc]

theorem Doc.set_eq_append {d : Doc} {k : String} (v : Value)
    (h : Doc.contains d k = false) : Doc.set d k v = d ++ [(k, v)] := by
  induction d with
  | nil => rfl
  | cons kv rest ih =>
      simp only [Doc.contains, Bool.or_eq_false_iff, decide_eq_false_iff_not] at h
      simp [Doc.set, h.1, ih h.2]

theorem Doc.setMany_append (d : Doc) (u₁ u₂ : Doc) :
    Doc.setMany d (u₁ ++ u₂) = Doc.setMany (Doc.setMany d u₁) u₂ := by
  induction u₁ generalizing d with
  | nil => rfl
  | cons kv rest ih => simp [Doc.setMany, ih]

theorem Doc.get_setMany_of_not_contains {u : Doc} {k : String} (d : Doc)
    (h : Doc.contains u k = false) : Doc.get (Doc.setMany d u) k = Doc.get d k := by
  induction u generalizing d with
  | nil => rfl
  | cons kv rest ih =>
      simp only [Doc.contains, Bool.or_eq_false_iff, decide_eq_false_iff_not] at h
      rw [Doc.setMany, ih _ h.2, Doc.get_set_ne _ _ _ _ h.1]

theorem Doc.contains_setMany_of_not_contains {u : Doc} {k : String} (d : Doc)
    (h : Doc.contains u k = false) :
    Doc.contains (Doc.setMany d u) k = Doc.contains d k := by
  induction u generalizing d with
  | nil => rfl
  | cons kv rest ih =>
      simp only [Doc.contains, Bool.or_eq_false_iff, decide_eq_false_iff_not] at h
      rw [Doc.setMany, ih _ h.2, Doc.contains_set_ne _ _ _ _ h.1]

theorem Doc.get_append_singleton_ne (d : Doc) (k k' : String) (v : Value) (h : k ≠ k') :
    Doc.get (d ++ [(k, v)]) k' = Doc.get d k' := by
  induction d with
  | nil => simp [Doc.get, h]
  | cons kv rest ih =>
      by_cases hk : kv.1 = k'
      · simp [Doc.get, hk]
      · simp [Doc.get, hk, ih]

theorem Doc.get_setdefault_ne (d : Doc) (k k' : String) (v : Value) (h : k ≠ k') :
    Doc.get (Doc.setdefault d k v) k' = Doc.get d k' := by
  unfold Doc.setdefault
  by_cases hc : Doc.contains d k
  · simp [hc]
  · simp only [hc, Bool.false_eq_true, not_false_iff, if_false]
    exact Doc.get_append_singleton_ne d k k' v h

theorem Doc.contains_setdefault_ne (d : Doc) (k k' : String) (v : Value) (h : k ≠ k') :
    Doc.contains (Doc.setdefault d k v) k' = Doc.contains d k' := by
  unfold Doc.setdefault
  by_cases hc : Doc.contains d k
  · simp [hc]
  · simp only [hc, Bool.false_eq_true, not_false_iff, if_false]
    rw [Doc.contains_append]
    simp [Doc.contains, h]

theorem Doc.get_setdefault_self_absent {d : Doc} {k : String} (v : Value)
    (h : Doc.contains d k = false) : Doc.get (Doc.setdefault d k v) k = some v := by
  unfold Doc.setdefault
  rw [if_neg (by simp [h])]
  rw [Doc.get_append_right _ h]
  simp [Doc.get]

theorem Doc.get_setdefault_self_present {d : Doc} {k : String} (v : Value)
    (h : Doc.contains d k = true) : Doc.get (Doc.setdefault d k v) k = Doc.get d k := by
  unfold Doc.setdefault
  rw [if_pos h]

/-!
Mongo collection write primitives: delete_one, delete_many, and
update_one with a $set document, on a collection modelled as a list
of documents.
-/

/-- Mongo delete_one: removes the first matching document and reports
the deleted count (0 or 1). -/
def deleteOne (p : Doc → Bool) : List Doc → List Doc × Nat
  | [] => ([], 0)
  | d :: rest =>
    if p d then (rest, 1)
    else
      let r := deleteOne p rest
      (d :: r.1, r.2)

/-- Mongo delete_many: removes every matching document and reports the
deleted count. -/
def deleteMany (p : Doc → Bool) : List Doc → List Doc × Nat
  | [] => ([], 0)
  | d :: rest =>
    let r := deleteMany p rest
    if p d then (r.1, r.2 + 1) else (d :: r.1, r.2)

/-- Mongo update_one with a $set update: rewrites the first matching
document and reports whether the document actually changed
(modified_count > 0). -/
def updateOneSet (filter : Doc) (u : Doc) : List Doc → List Doc × Bool
  | [] => ([], false)
  | d :: rest =>
    if docMatches filter d then
      (Doc.setMany d u :: rest, !(decide (Doc.setMany d u = d)))
    else
      let r := updateOneSet filter u rest
      (d :: r.1, r.2)

theorem deleteOne_of_find_none {p : Doc → Bool} {l : List Doc}
    (h : l.find? p = none) : deleteOne p l = (l, 0) := by
  induction l with
  | nil => rfl
  | cons d rest ih =>
      rw [List.find?_cons] at h
      cases hp : p d with
      | true => simp [hp] at h
      | false =>
          simp only [hp] at h
          simp [deleteOne, hp, ih h]

theorem deleteOne_of_find_some {p : Doc → Bool} {l : List Doc} {d : Doc}
    (h : l.find? p = some d) : deleteOne p l = (l.eraseP p, 1) := by
  induction l with
  | nil => simp [List.find?] at h
  | cons e rest ih =>
      cases hp : p e with
      | true => simp [deleteOne, hp, List.eraseP_cons, hp]
      | false =>
          rw [List.find?_cons, hp] at h
          simp [deleteOne, hp, List.eraseP_cons, ih h]

theorem deleteMany_fst (p : Doc → Bool) (l : List Doc) :
    (deleteMany p l).1 = l.filter (fun d => !(p d)) := by
  induction l with
  | nil => rfl
  | cons d rest ih =>
      cases hp : p d <;> simp [deleteMany, hp, List.filter, ih]

theorem updateOneSet_of_find_none {filter u : Doc} {l : List Doc}
    (h : l.find? (docMatches filter) = none) : updateOneSet filter u l = (l, false) := by
  induction l with
  | nil => rfl
  | cons d rest ih =>
      rw [List.find?_cons] at h
      cases hp : docMatches filter d with
      | true => simp [hp] at h
      | false =>
          simp only [hp] at h
          simp [updateOneSet, hp, ih h]

theorem updateOneSet_of_find_some {filter u : Doc} {l : List Doc} {d : Doc}
    (h : l.find? (docMatches filter) = some d) :
    (Doc.setMany d u = d → updateOneSet filter u l = (l, false)) ∧
    (Doc.setMany d u ≠ d → (updateOneSet filter u l).2 = true) := by
  induction l with
  | nil => simp [List.find?] at h
  | cons e rest ih =>
      cases hp : docMatches filter e with
      | true =>
          rw [List.find?_cons, hp] at h
          simp only [Option.some.injEq] at h
          subst h
          constructor
          · intro heq
            simp [updateOneSet, hp, heq]
          · intro hne
            simp [updateOneSet, hp, hne]
      | false =>
          rw [List.find?_cons, hp] at h
          have ihh := ih h
          constructor
          · intro heq
            simp [updateOneSet, hp, ihh.1 heq]
          · intro hne
            simp [updateOneSet, hp, ihh.2 hne]

theorem updateOneSet_no_new_key {filter u : Doc} {k : String} {l : List Doc}
    (hl : ∀ d ∈ l, Doc.contains d k = false) (hu : Doc.contains u k = false) :
    ∀ d ∈ (updateOneSet filter u l).1, Doc.contains d k = false := by
  induction l with
  | nil => intro d hd; simp [updateOneSet] at hd
  | cons e rest ih =>
      intro d hd
      cases hp : docMatches filter e with
      | true =>
          simp only [updateOneSet, hp, if_true] at hd
          rcases List.mem_cons.mp hd with h | h
          · subst h
            rw [Doc.contains_setMany_of_not_contains _ hu]
            exact hl e (List.mem_cons_self _ _)
          · exact hl d (List.mem_cons_of_mem _ h)
      | false =>
          simp only [updateOneSet, hp, Bool.false_eq_true, if_false] at hd
          rcases List.mem_cons.mp hd with h | h
          · subst h
            exact hl d (List.mem_cons_self _ _)
          · exact ih (fun x hx => hl x (List.mem_cons_of_mem _ hx)) d h

/-!
Transactional operation: delete_shopping_list (models.py).  The two
collections it touches are bundled in one state so that the one-result
return value is the atomic effect of the transaction.
-/

/-- The shopping_lists and shopping_items collections touched by the
cascading delete transaction. -/
structure ShoppingDb where
  shopping_lists : List Doc
  shopping_items : List Doc
deriving DecidableEq

/-- Filter built by delete_shopping_list: always the list id; the
user_id/email ownership pair only when both are truthy (Python
`if user_id and email`, with email lowercased). -/
def deleteFilter (list_id : String) (user_id email : Option String) : Doc :=
  let base : Doc := [("_id", Value.vStr list_id)]
  match user_id, email with
  | some u, some e =>
      if u.isEmpty || e.isEmpty then base
      else Doc.set (Doc.set base "user_id" (Value.vStr u)) "email" (Value.vStr (pyLower e))
  | _, _ => base

/-- Python exceptions raised by the shopping-list write paths:
ValueError from the required-field check, and AttributeError from the
get_shopping_lists.cache_clear() calls — get_shopping_lists carries no
lru_cache decorator (only get_user and get_user_by_email do), so a
plain function has no cache_clear attribute. -/
inductive PyErr where
  | valueError
  | attributeError
deriving DecidableEq

/-- models.py delete_shopping_list: within one opened transaction,
delete the matching list; if nothing matched, return False. Otherwise
delete every item whose list_id references the list — and then call
get_shopping_lists.cache_clear(), which raises AttributeError (the
function is not lru_cache-decorated); the except clause logs it and
re-raises, so the return True is never reached. The delete_one and
delete_many calls are not passed session=session, so they execute
outside the opened transaction and their effect survives the raise. -/
def delete_shopping_list (db : ShoppingDb) (list_id : String)
    (user_id email : Option String) : ShoppingDb × Except PyErr Bool :=
  let fc := deleteFilter list_id user_id email
  let lr := deleteOne (docMatches fc) db.shopping_lists
  if lr.2 = 0 then (db, .ok false)
  else
    let ir := deleteMany (fun d => Doc.get d "list_id" == some (Value.vStr list_id)) db.shopping_items
    ({ shopping_lists := lr.1, shopping_items := ir.1 }, .error .attributeError)

/-!
Transactional operation: update_user_balance (models.py), an atomic
$inc of users.ficore_credit_balance.
-/

/-- Effect of a Mongo $inc on one field value: a missing field is
created with the increment, a numeric field is incremented, and a
non-numeric field is a server-side error (re-raised by the caller). -/
def incValue : Option Value → ℚ → Option Value
  | none, a => some (Value.vNum a)
  | some (Value.vNum q), a => some (Value.vNum (q + a))
  | some _, _ => none

/-- models.py update_user_balance: update_one({'user_id': user_id},
{'$inc': {'ficore_credit_balance': amount}}), returning
modified_count > 0; none models a raised exception. -/
def update_user_balance : List Doc → String → ℚ → Option (List Doc × Bool)
  | [], _, _ => some ([], false)
  | d :: rest, uid, a =>
    if Doc.get d "user_id" == some (Value.vStr uid) then
      match incValue (Doc.get d "ficore_credit_balance") a with
      | some v =>
          some (Doc.set d "ficore_credit_balance" v :: rest,
                !(Doc.get d "ficore_credit_balance" == some v))
      | none => none
    else
      match update_user_balance rest uid a with
      | some r => some (d :: r.1, r.2)
      | none => none


/-- Numeric ficore_credit_balance field of one user document
(observer used to state the balance claims). -/
def balanceField (d : Doc) : Option ℚ :=
  match Doc.get d "ficore_credit_balance" with
  | some (Value.vNum q) => some q
  | _ => none

/-- Balance of the first user document matching user_id, when numeric. -/
def getBalance : List Doc → String → Option ℚ
  | [], _ => none
  | d :: rest, uid =>
    if Doc.get d "user_id" == some (Value.vStr uid) then balanceField d
    else getBalance rest uid

/-- New collection state after a balance update, when it succeeded. -/
def balanceAfter (users : List Doc) (uid : String) (a : ℚ) : Option (List Doc) :=
  (update_user_balance users uid a).map Prod.fst

theorem balanceField_eq_some {d : Doc} {b : ℚ} (h : balanceField d = some b) :
    Doc.get d "ficore_credit_balance" = some (Value.vNum b) := by
  unfold balanceField at h
  cases hg : Doc.get d "ficore_credit_balance" with
  | none => rw [hg] at h; simp at h
  | some v =>
      cases v with
      | vNum q => rw [hg] at h; simp only [Option.some.injEq] at h; rw [h]
      | vStr s => rw [hg] at h; simp at h
      | vBool bb => rw [hg] at h; simp at h
      | vNull => rw [hg] at h; simp at h
      | vList l => rw [hg] at h; simp at h

theorem update_user_balance_spec (users : List Doc) (uid : String) (a b : ℚ)
    (h : getBalance users uid = some b) :
    ∃ users', update_user_balance users uid a = some (users', decide (a ≠ 0))
      ∧ getBalance users' uid = some (b + a) := by
  induction users with
  | nil => simp [getBalance] at h
  | cons d rest ih =>
      by_cases hd : (Doc.get d "user_id" == some (Value.vStr uid)) = true
      · rw [getBalance, if_pos hd] at h
        have hbal := balanceField_eq_some h
        have hinc : incValue (Doc.get d "ficore_credit_balance") a
            = some (Value.vNum (b + a)) := by rw [hbal]; rfl
        have hflag : (!(Doc.get d "ficore_credit_balance" == some (Value.vNum (b + a))))
            = decide (a ≠ 0) := by
          rw [hbal]
          by_cases ha : a = 0
          · subst ha; simp
          · have hbne : b ≠ b + a := fun hcontra => ha (by linarith [hcontra])
            simp [ha, hbne]
        refine ⟨Doc.set d "ficore_credit_balance" (Value.vNum (b + a)) :: rest, ?_, ?_⟩
        · rw [update_user_balance, if_pos hd, hinc]
          show some (Doc.set d "ficore_credit_balance" (Value.vNum (b + a)) :: rest,
                 !(Doc.get d "ficore_credit_balance" == some (Value.vNum (b + a)))) = _
          rw [hflag]
        · have hid : Doc.get (Doc.set d "ficore_credit_balance" (Value.vNum (b + a))) "user_id"
              = Doc.get d "user_id" := Doc.get_set_ne _ _ _ _ (by decide)
          rw [getBalance, hid, if_pos hd]
          unfold balanceField
          rw [Doc.get_set_self]
      · rw [getBalance, if_neg hd] at h
        obtain ⟨users', hrun, hbal'⟩ := ih h
        refine ⟨d :: users', ?_, ?_⟩
        · rw [update_user_balance, if_neg hd, hrun]
        · rw [getBalance, if_neg hd]
          exact hbal'

/-!
The Reconciler (initialize_app_data, models.py): per collection, the
declared indexes are compared against one snapshot of
index_information(); a same-key same-options live index is skipped, a
same-key different-options live index is dropped (never the primary
identifier index, which is named the underscore-id name) and the
declared index is created; creation hitting an IndexKeySpecsConflict
drops the conflicting named index (again never the primary identifier
index) and retries once.
-/

/-- pymongo ASCENDING direction. -/
def ASCENDING : Int := 1

/-- pymongo DESCENDING direction. -/
def DESCENDING : Int := -1

/-- One declared index of the Schema Registry: its key ordering and its
non-key options (for this registry, at most a unique flag). -/
structure DeclIndex where
  key : List (String × Int)
  options : List (String × Value)
deriving DecidableEq

/-- One entry of index_information(): the index name, its key tuple,
and the rest of the info dict (which may hold v, ns and options). -/
structure LiveIndex where
  name : String
  key : List (String × Int)
  info : List (String × Value)
deriving DecidableEq

/-- The comparison dict built from a live index info entry: everything
except the key, v and ns entries. -/
def stripOptions (info : List (String × Value)) : List (String × Value) :=
  info.filter (fun kv => !(kv.1 == "v") && !(kv.1 == "ns"))

/-- Python dict equality: order-insensitive key/value agreement. -/
def dictEq (a b : List (String × Value)) : Bool :=
  a.all (fun kv => Doc.get b kv.1 == some kv.2) && b.all (fun kv => Doc.get a kv.1 == some kv.2)

/-- The index name initialize_app_data computes from the declared key
ordering (directions in the Registry are the integers 1 and -1). -/
def indexName (key : List (String × Int)) : String :=
  String.intercalate "_" (key.map (fun kv => kv.1 ++ "_" ++ toString kv.2))

/-- Outcome of the inner loop over the index_information() snapshot for
one declared index. -/
inductive ScanResult where
  | found
  | dropFirst (nm : String)
  | noMatch
deriving DecidableEq

/-- Inner loop of the Reconciler: first snapshot entry with the same
key tuple decides; equal options mean the index exists, different
options mean drop-and-recreate, except that the primary identifier
index is skipped (continue) rather than dropped. -/
def scanSnapshot (d : DeclIndex) : List LiveIndex → ScanResult
  | [] => .noMatch
  | li :: rest =>
    if li.key = d.key then
      if dictEq (stripOptions li.info) d.options then .found
      else if li.name = "_id_" then scanSnapshot d rest
      else .dropFirst li.name
    else scanSnapshot d rest

/-- Mongo drop_index by name: dropping an absent name is an error. -/
def dropIndexNamed (nm : String) (live : List LiveIndex) : Option (List LiveIndex) :=
  if live.any (fun li => li.name == nm) then
    some (live.filter (fun li => !(li.name == nm)))
  else none

/-- Outcome of Mongo create_index. -/
inductive CreateResult where
  | ok (live : List LiveIndex)
  | keySpecConflict
  | otherError
deriving DecidableEq

/-- Mongo create_index with an explicit name: an existing index with
the same name but a different key raises IndexKeySpecsConflict; same
name, same key and same options is a no-op; same name and key with
different options is another error; otherwise the index is added. -/
def createIndex (live : List LiveIndex) (nm : String) (key : List (String × Int))
    (opts : List (String × Value)) : CreateResult :=
  match live.find? (fun li => li.name == nm) with
  | some li =>
      if li.key = key then
        if dictEq (stripOptions li.info) opts then .ok live else .otherError
      else .keySpecConflict
  | none => .ok (live ++ [{ name := nm, key := key, info := opts }])

/-- Running state of one collection's index reconciliation: the live
index list plus an audit trail of the names dropped and created; a
raised error sets failed and stops the loop. -/
structure IdxState where
  live : List LiveIndex
  drops : List String
  creates : List String
  failed : Bool
deriving DecidableEq

/-- The create-with-one-retry step of the Reconciler, entered when no
snapshot index satisfied the declared one. -/
def tryCreate (st : IdxState) (d : DeclIndex) : IdxState :=
  match createIndex st.live (indexName d.key) d.key d.options with
  | .ok live' => { st with live := live', creates := st.creates ++ [indexName d.key] }
  | .keySpecConflict =>
      if indexName d.key = "_id_" then st
      else
        match dropIndexNamed (indexName d.key) st.live with
        | none => { st with failed := true }
        | some live₁ =>
            match createIndex live₁ (indexName d.key) d.key d.options with
            | .ok live₂ =>
                { st with
                  live := live₂
                  drops := st.drops ++ [indexName d.key]
                  creates := st.creates ++ [indexName d.key] }
            | _ => { st with live := live₁, drops := st.drops ++ [indexName d.key], failed := true }
  | .otherError => { st with failed := true }

/-- One iteration of the Reconciler's loop over the declared indexes of
a collection, against the fixed index_information() snapshot. -/
def reconcileStep (snapshot : List LiveIndex) (st : IdxState) (d : DeclIndex) : IdxState :=
  if st.failed then st
  else
    match scanSnapshot d snapshot with
    | .found => st
    | .noMatch => tryCreate st d
    | .dropFirst nm =>
        match dropIndexNamed nm st.live with
        | none => { st with failed := true }
        | some live₁ => tryCreate { st with live := live₁, drops := st.drops ++ [nm] } d

/-- Index reconciliation of one collection: fold the per-declared-index
step over the declared index list, starting from the live snapshot. -/
def reconcileIndexes (snapshot : List LiveIndex) (decls : List DeclIndex) : IdxState :=
  decls.foldl (reconcileStep snapshot) { live := snapshot, drops := [], creates := [], failed := false }

/-- Reconciled-database condition for one declared index, as the claim
states it: the first live index with the same key tuple carries the
same options. -/
def declSatisfied (snapshot : List LiveIndex) (d : DeclIndex) : Bool :=
  match snapshot.find? (fun li => li.key == d.key) with
  | some li => dictEq (stripOptions li.info) d.options
  | none => false

/-!
The Schema Registry of initialize_app_data: declared index lists and,
for the users collection, the validator facts the claims mention.
-/

/-- Declared indexes of the users collection. -/
def users_indexes : List DeclIndex :=
  [{ key := [("user_id", ASCENDING)], options := [("unique", Value.vBool true)] }]

/-- Declared indexes of the shopping_items collection. -/
def shopping_items_indexes : List DeclIndex :=
  [{ key := [("user_id", ASCENDING), ("list_id", ASCENDING)], options := [] },
   { key := [("created_at", DESCENDING)], options := [] }]

/-- Declared indexes of the shopping_lists collection. -/
def shopping_lists_indexes : List DeclIndex :=
  [{ key := [("user_id", ASCENDING), ("status", ASCENDING), ("updated_at", DESCENDING)], options := [] },
   { key := [("session_id", ASCENDING), ("status", ASCENDING), ("updated_at", DESCENDING)], options := [] }]

/-- Declared indexes of the budgets collection. -/
def budgets_indexes : List DeclIndex :=
  [{ key := [("user_id", ASCENDING), ("created_at", DESCENDING)], options := [] },
   { key := [("session_id", ASCENDING), ("created_at", DESCENDING)], options := [] }]

/-- Declared indexes of the bills collection. -/
def bills_indexes : List DeclIndex :=
  [{ key := [("user_id", ASCENDING), ("due_date", ASCENDING)], options := [] },
   { key := [("session_id", ASCENDING), ("due_date", ASCENDING)], options := [] },
   { key := [("status", ASCENDING)], options := [] }]

/-- Declared indexes of the bill_reminders collection. -/
def bill_reminders_indexes : List DeclIndex :=
  [{ key := [("user_id", ASCENDING), ("sent_at", DESCENDING)], options := [] },
   { key := [("session_id", ASCENDING), ("sent_at", DESCENDING)], options := [] }]

/-- Required fields of the users collection validator. -/
def users_required_fields : List String := ["user_id", "ficore_credit_balance"]

/-- Declared bsonType of each users validator property. -/
def users_validator_types : List (String × String) :=
  [("user_id", "string"), ("ficore_credit_balance", "double")]

/-- Declared numeric minimums of the users validator properties. -/
def users_validator_minimums : List (String × ℚ) :=
  [("ficore_credit_balance", 0)]

-- Reconciler lemmas.

theorem scanSnapshot_found_of_declSatisfied {snapshot : List LiveIndex} {d : DeclIndex}
    (h : declSatisfied snapshot d = true) : scanSnapshot d snapshot = .found := by
  induction snapshot with
  | nil => simp [declSatisfied, List.find?] at h
  | cons li rest ih =>
      by_cases hk : li.key = d.key
      · have hfind : (li :: rest).find? (fun x => x.key == d.key) = some li :=
          List.find?_cons_of_pos _ (by simp [hk])
        unfold declSatisfied at h
        rw [hfind] at h
        simp only at h
        rw [scanSnapshot, if_pos hk, if_pos h]
      · have hfind : (li :: rest).find? (fun x => x.key == d.key)
            = rest.find? (fun x => x.key == d.key) :=
          List.find?_cons_of_neg _ (by simp [hk])
        unfold declSatisfied at h
        rw [hfind] at h
        rw [scanSnapshot, if_neg hk]
        exact ih h

theorem scanSnapshot_dropFirst_ne_id {snapshot : List LiveIndex} {d : DeclIndex} {nm : String}
    (h : scanSnapshot d snapshot = .dropFirst nm) : nm ≠ "_id_" := by
  induction snapshot with
  | nil => simp [scanSnapshot] at h
  | cons li rest ih =>
      by_cases hk : li.key = d.key
      · rw [scanSnapshot, if_pos hk] at h
        by_cases ho : dictEq (stripOptions li.info) d.options = true
        · rw [if_pos ho] at h; simp at h
        · rw [if_neg ho] at h
          by_cases hn : li.name = "_id_"
          · rw [if_pos hn] at h; exact ih h
          · rw [if_neg hn] at h
            simp only [ScanResult.dropFirst.injEq] at h
            rw [← h]; exact hn
      · rw [scanSnapshot, if_neg hk] at h
        exact ih h

theorem dropIndexNamed_mem {nm : String} {live live' : List LiveIndex}
    (h : dropIndexNamed nm live = some live') {li : LiveIndex}
    (hm : li ∈ live) (hn : li.name ≠ nm) : li ∈ live' := by
  unfold dropIndexNamed at h
  split at h
  · simp only [Option.some.injEq] at h
    rw [← h]
    exact List.mem_filter.mpr ⟨hm, by simp [hn]⟩
  · simp at h

theorem createIndex_mem {live live' : List LiveIndex} {nm : String}
    {key : List (String × Int)} {opts : List (String × Value)}
    (h : createIndex live nm key opts = .ok live') {li : LiveIndex}
    (hm : li ∈ live) : li ∈ live' := by
  unfold createIndex at h
  split at h
  · split at h
    · split at h
      · simp only [CreateResult.ok.injEq] at h
        rw [← h]; exact hm
      · simp at h
    · simp at h
  · simp only [CreateResult.ok.injEq] at h
    rw [← h]
    exact List.mem_append_left _ hm

theorem tryCreate_drops_id {st : IdxState} (d : DeclIndex) (h : "_id_" ∉ st.drops) :
    "_id_" ∉ (tryCreate st d).drops := by
  unfold tryCreate
  split
  · simpa using h
  · split
    · exact h
    · rename_i hid
      split
      · simpa using h
      · split
        · simp only [List.mem_append, List.mem_singleton, not_or]
          exact ⟨h, fun he => hid he.symm⟩
        · simp only [List.mem_append, List.mem_singleton, not_or]
          exact ⟨h, fun he => hid he.symm⟩
  · simpa using h

theorem tryCreate_live_id {st : IdxState} (d : DeclIndex) {li : LiveIndex}
    (hm : li ∈ st.live) (hn : li.name = "_id_") : li ∈ (tryCreate st d).live := by
  unfold tryCreate
  split
  · rename_i live' heq
    exact createIndex_mem heq hm
  · split
    · exact hm
    · rename_i hid
      split
      · exact hm
      · rename_i live₁ hdrop
        have hm₁ : li ∈ live₁ :=
          dropIndexNamed_mem hdrop hm (by rw [hn]; exact fun he => hid he.symm)
        split
        · rename_i live₂ heq2
          exact createIndex_mem heq2 hm₁
        · exact hm₁
  · exact hm

theorem reconcileStep_drops_id (snapshot : List LiveIndex) (st : IdxState) (d : DeclIndex)
    (h : "_id_" ∉ st.drops) : "_id_" ∉ (reconcileStep snapshot st d).drops := by
  unfold reconcileStep
  split
  · exact h
  · split
    · exact h
    · exact tryCreate_drops_id d h
    · rename_i nm hscan
      split
      · simpa using h
      · refine tryCreate_drops_id d ?_
        simp only [List.mem_append, List.mem_singleton, not_or]
        exact ⟨h, fun he => (scanSnapshot_dropFirst_ne_id hscan) he.symm⟩

theorem reconcileStep_live_id (snapshot : List LiveIndex) (st : IdxState) (d : DeclIndex)
    {li : LiveIndex} (hm : li ∈ st.live) (hn : li.name = "_id_") :
    li ∈ (reconcileStep snapshot st d).live := by
  unfold reconcileStep
  split
  · exact hm
  · split
    · exact hm
    · exact tryCreate_live_id d hm hn
    · rename_i nm hscan
      split
      · exact hm
      · rename_i live₁ hdrop
        have hm₁ : li ∈ live₁ :=
          dropIndexNamed_mem hdrop hm
            (by rw [hn]; exact fun he => (scanSnapshot_dropFirst_ne_id hscan) he.symm)
        exact tryCreate_live_id d hm₁ hn

/-- C4: for every Schema Registry configuration and every live index
state, the Reconciler never drops the index named the primary
identifier name, in either the options-mismatch branch or the
key-spec-conflict retry branch, and every live index bearing that
name survives the whole run. -/
theorem claim4_never_drops_primary_index (snapshot : List LiveIndex) (decls : List DeclIndex) :
    "_id_" ∉ (reconcileIndexes snapshot decls).drops ∧
    ∀ li ∈ snapshot, li.name = "_id_" → li ∈ (reconcileIndexes snapshot decls).live := by
  unfold reconcileIndexes
  have key : ∀ (ds : List DeclIndex) (st : IdxState), "_id_" ∉ st.drops →
      (∀ li ∈ snapshot, li.name = "_id_" → li ∈ st.live) →
      ("_id_" ∉ (ds.foldl (reconcileStep snapshot) st).drops ∧
       ∀ li ∈ snapshot, li.name = "_id_" → li ∈ (ds.foldl (reconcileStep snapshot) st).live) := by
    intro ds
    induction ds with
    | nil => intro st h1 h2; exact ⟨h1, h2⟩
    | cons d rest ih =>
        intro st h1 h2
        rw [List.foldl_cons]
        exact ih _ (reconcileStep_drops_id snapshot st d h1)
          (fun li hli hni => reconcileStep_live_id snapshot st d (h2 li hli hni) hni)
  exact key decls _ (by simp) (fun li hli _ => hli)

/-- C3: re-running the Reconciler against a database already reconciled
to the unchanged Schema Registry performs zero index drops and zero
index creations: every declared index is found (same key tuple, same
options) and skipped, and the live index state is left untouched. -/
theorem claim3_second_run_no_churn (snapshot : List LiveIndex) (decls : List DeclIndex)
    (h : ∀ d ∈ decls, declSatisfied snapshot d = true) :
    reconcileIndexes snapshot decls
      = { live := snapshot, drops := [], creates := [], failed := false } := by
  unfold reconcileIndexes
  have key : ∀ (ds : List DeclIndex), (∀ d ∈ ds, declSatisfied snapshot d = true) →
      ∀ st : IdxState, st.failed = false → ds.foldl (reconcileStep snapshot) st = st := by
    intro ds
    induction ds with
    | nil => intro _ st _; rfl
    | cons d rest ih =>
        intro hall st hst
        rw [List.foldl_cons]
        have hscan := scanSnapshot_found_of_declSatisfied (hall d (List.mem_cons_self _ _))
        have hstep : reconcileStep snapshot st d = st := by
          unfold reconcileStep
          rw [if_neg (by simp [hst]), hscan]
        rw [hstep]
        exact ih (fun x hx => hall x (List.mem_cons_of_mem _ hx)) st hst
  exact key decls h _ rfl

/-- An index_information() snapshot of a correctly reconciled users
collection: the primary identifier index plus the declared unique
user_id index. -/
def usersSnapshot : List LiveIndex :=
  [{ name := "_id_", key := [("_id", ASCENDING)], info := [("v", Value.vNum 2)] },
   { name := "user_id_1", key := [("user_id", ASCENDING)],
     info := [("v", Value.vNum 2), ("unique", Value.vBool true)] }]

/-- Witness for C3: the users collection, already reconciled, suffers
no drop and no create on a second run. -/
theorem claim3_witness :
    reconcileIndexes usersSnapshot users_indexes
      = { live := usersSnapshot, drops := [], creates := [], failed := false } :=
  claim3_second_run_no_churn usersSnapshot users_indexes (by decide)

/-- Full behavior of delete_shopping_list: when no list matches the
ownership filter it returns False with the state untouched; when one
matches it removes that list and exactly the items whose list_id
references it, but the call ends in the re-raised AttributeError from
get_shopping_lists.cache_clear() instead of returning True. -/
theorem delete_shopping_list_characterization (db : ShoppingDb) (lid : String) (uid em : Option String) :
    (db.shopping_lists.find? (docMatches (deleteFilter lid uid em)) = none
       ∧ delete_shopping_list db lid uid em = (db, .ok false))
  ∨ ((∃ d, db.shopping_lists.find? (docMatches (deleteFilter lid uid em)) = some d)
       ∧ delete_shopping_list db lid uid em =
           ({ shopping_lists := db.shopping_lists.eraseP (docMatches (deleteFilter lid uid em)),
              shopping_items := db.shopping_items.filter
                (fun d => !(Doc.get d "list_id" == some (Value.vStr lid))) },
            .error PyErr.attributeError)) := by
  cases hf : db.shopping_lists.find? (docMatches (deleteFilter lid uid em)) with
  | none =>
      left
      refine ⟨rfl, ?_⟩
      simp only [delete_shopping_list, deleteOne_of_find_none hf]
      simp
  | some d =>
      right
      refine ⟨⟨d, rfl⟩, ?_⟩
      simp only [delete_shopping_list, deleteOne_of_find_some hf, deleteMany_fst]
      simp

/-- C2: update_user_balance is an unconditional $inc of the stored
balance: starting from any numeric balance b, applying amounts a1 and
a2 in either order lands on b + a1 + a2 (no lost update, no
non-negativity clamp), and each call reports whether the document was
modified. -/
theorem claim2_balance_increment (users : List Doc) (uid : String) (b a1 a2 : ℚ)
    (h : getBalance users uid = some b) :
    ((balanceAfter users uid a1).bind (fun u => balanceAfter u uid a2)).bind
        (fun u => getBalance u uid) = some (b + a1 + a2) ∧
    ((balanceAfter users uid a2).bind (fun u => balanceAfter u uid a1)).bind
        (fun u => getBalance u uid) = some (b + a1 + a2) ∧
    (update_user_balance users uid a1).map Prod.snd = some (decide (a1 ≠ 0)) ∧
    (update_user_balance users uid a2).map Prod.snd = some (decide (a2 ≠ 0)) := by
  obtain ⟨u1, hr1, hb1⟩ := update_user_balance_spec users uid a1 b h
  obtain ⟨u12, hr12, hb12⟩ := update_user_balance_spec u1 uid a2 (b + a1) hb1
  obtain ⟨u2, hr2, hb2⟩ := update_user_balance_spec users uid a2 b h
  obtain ⟨u21, hr21, hb21⟩ := update_user_balance_spec u2 uid a1 (b + a2) hb2
  have hba1 : balanceAfter users uid a1 = some u1 := by rw [balanceAfter, hr1]; rfl
  have hba12 : balanceAfter u1 uid a2 = some u12 := by rw [balanceAfter, hr12]; rfl
  have hba2 : balanceAfter users uid a2 = some u2 := by rw [balanceAfter, hr2]; rfl
  have hba21 : balanceAfter u2 uid a1 = some u21 := by rw [balanceAfter, hr21]; rfl
  refine ⟨?_, ?_, ?_, ?_⟩
  · rw [hba1]
    show (balanceAfter u1 uid a2).bind (fun u => getBalance u uid) = some (b + a1 + a2)
    rw [hba12]
    exact hb12
  · rw [hba2]
    show (balanceAfter u2 uid a1).bind (fun u => getBalance u uid) = some (b + a1 + a2)
    rw [hba21]
    show getBalance u21 uid = some (b + a1 + a2)
    rw [hb21]
    congr 1
    ring
  · rw [hr1]; rfl
  · rw [hr2]; rfl

/-- A one-user collection with balance 10, for the C2 witness. -/
def usersC2 : List Doc :=
  [[("user_id", Value.vStr "u1"), ("ficore_credit_balance", Value.vNum 10)]]

/-- Witness for C2: starting balance 10, amounts +5 and -3 in either
order give 12 (the spec's own concurrency example). -/
theorem claim2_witness :
    ((balanceAfter usersC2 "u1" 5).bind (fun u => balanceAfter u "u1" (-3))).bind
        (fun u => getBalance u "u1") = some 12 ∧
    ((balanceAfter usersC2 "u1" (-3)).bind (fun u => balanceAfter u "u1" 5)).bind
        (fun u => getBalance u "u1") = some 12 := by
  have h := claim2_balance_increment usersC2 "u1" 10 5 (-3) rfl
  refine ⟨?_, ?_⟩
  · rw [h.1]; norm_num
  · rw [h.2.1]; norm_num

/-!
Repository functions (models.py). Database reads that can fail are
passed in as an Except-valued find result; each function's except
clause is embedded as its behavior on the error case.
-/

/-- An unexpected internal database error. -/
inductive DbErr where
  | err
deriving DecidableEq

/-- models.py get_budgets: sort by created_at descending; errors are
logged and re-raised. -/
def get_budgets (find : Except DbErr (List Doc)) : Except DbErr (List Doc) :=
  match find with
  | .ok docs => .ok (sortByNumDesc "created_at" docs)
  | .error e => .error e

/-- models.py get_bills: sort by due_date ascending; errors are logged
and re-raised. -/
def get_bills (find : Except DbErr (List Doc)) : Except DbErr (List Doc) :=
  match find with
  | .ok docs => .ok (sortByNumAsc "due_date" docs)
  | .error e => .error e

/-- Mongo insert_one id assignment: the document keeps a
caller-supplied _id, otherwise the freshly generated id is added. -/
def insertWithId (d : Doc) (freshId : String) : Doc :=
  if Doc.contains d "_id" then d else d ++ [("_id", Value.vStr freshId)]

/-- Required fields checked by create_budget. -/
def budget_required_fields : List String :=
  ["user_id", "income", "fixed_expenses", "variable_expenses", "created_at"]

/-- models.py create_budget: all required fields must be present or a
ValueError is raised before any write; on success the document is
inserted and its id returned (a fresh ObjectId when none is given). -/
def create_budget (budgets : List Doc) (budget_data : Doc) (freshId : String) :
    Except Unit (List Doc × String) :=
  if budget_required_fields.all (fun f => Doc.contains budget_data f) then
    .ok (budgets ++ [insertWithId budget_data freshId],
         pyStr ((Doc.get (insertWithId budget_data freshId) "_id").getD Value.vNull))
  else .error ()

/-- Required fields checked by create_shopping_item (unit is not among
them; it is defaulted instead). -/
def shopping_item_required_fields : List String :=
  ["user_id", "list_id", "name", "quantity", "price", "category", "status",
   "created_at", "updated_at"]

/-- The document create_shopping_item inserts: the input with
item_data['unit'] = item_data.get('unit', 'piece') applied, plus the
generated id. -/
def createdShoppingItemDoc (item_data : Doc) (freshId : String) : Doc :=
  insertWithId (Doc.set item_data "unit" ((Doc.get item_data "unit").getD (Value.vStr "piece")))
    freshId

/-- models.py create_shopping_item: required-field check, then
item_data['unit'] = item_data.get('unit', 'piece'), then insert. -/
def create_shopping_item (items : List Doc) (item_data : Doc) (freshId : String) :
    Except Unit (List Doc × String) :=
  if shopping_item_required_fields.all (fun f => Doc.contains item_data f) then
    .ok (items ++ [createdShoppingItemDoc item_data freshId],
         pyStr ((Doc.get (createdShoppingItemDoc item_data freshId) "_id").getD Value.vNull))
  else .error ()

/-- models.py get_shopping_items: find by filter, sorted by created_at
descending. -/
def get_shopping_items (items : List Doc) (filter_kwargs : Doc) : List Doc :=
  sortByNumDesc "created_at" (items.filter (docMatches filter_kwargs))

/-- models.py to_dict_shopping_item: the fixed-shape projection of a
shopping item record (note: it carries no unit entry). -/
def to_dict_shopping_item (record : Doc) : Doc :=
  if record.isEmpty then [("name", Value.vNull), ("quantity", Value.vNull)]
  else
    [("id", Value.vStr (pyStr ((Doc.get record "_id").getD (Value.vStr "")))),
     ("user_id", (Doc.get record "user_id").getD (Value.vStr "")),
     ("list_id", (Doc.get record "list_id").getD (Value.vStr "")),
     ("name", (Doc.get record "name").getD (Value.vStr "")),
     ("quantity", (Doc.get record "quantity").getD (Value.vNum 0)),
     ("price", (Doc.get record "price").getD (Value.vNum 0)),
     ("category", (Doc.get record "category").getD (Value.vStr "")),
     ("status", (Doc.get record "status").getD (Value.vStr "")),
     ("created_at", (Doc.get record "created_at").getD Value.vNull),
     ("updated_at", (Doc.get record "updated_at").getD Value.vNull),
     ("store", (Doc.get record "store").getD (Value.vStr "")),
     ("frequency", (Doc.get record "frequency").getD (Value.vNum 1))]

/-- models.py update_shopping_item: stamps updated_at = utcnow() into
the update document, then update_one by id with $set; returns
modified_count > 0. -/
def update_shopping_item (items : List Doc) (item_id : String) (update_data : Doc)
    (now : Value) : List Doc × Bool :=
  updateOneSet [("_id", Value.vStr item_id)] (Doc.set update_data "updated_at" now) items

/-- Required fields checked by create_shopping_list (items is not among
them; it is backfilled). -/
def shopping_list_required_fields : List String :=
  ["name", "session_id", "budget", "created_at", "updated_at", "total_spent", "status"]

/-- The document create_shopping_list inserts (named so the claim can
speak about it). -/
def createdShoppingListDoc (list_data : Doc) (freshUuid : String) : Doc :=
  Doc.set (Doc.set list_data "_id" (Value.vStr freshUuid)) "items"
    ((Doc.get (Doc.set list_data "_id" (Value.vStr freshUuid)) "items").getD (Value.vList []))

/-- models.py create_shopping_list: required-field check (ValueError
before any write when a field is missing); otherwise the _id is
unconditionally overwritten with a fresh uuid4 string, items is
backfilled with [] when absent, and the document inserted — after
which get_shopping_lists.cache_clear() raises AttributeError (the
function is not lru_cache-decorated), the except clause logs and
re-raises, and the return of str(result.inserted_id) (the uuid) is
never reached. The result pairs the persisted collection state with
the raised outcome; the Except payload type is the id that a normal
return would carry. -/
def create_shopping_list (lists : List Doc) (list_data : Doc) (freshUuid : String) :
    List Doc × Except PyErr String :=
  if shopping_list_required_fields.all (fun f => Doc.contains list_data f) then
    (lists ++ [createdShoppingListDoc list_data freshUuid], .error .attributeError)
  else (lists, .error .valueError)

/-- models.py update_budget: update_one by id with $set — no
updated_at stamping — returning modified_count > 0. -/
def update_budget (budgets : List Doc) (budget_id : String) (update_data : Doc) :
    List Doc × Bool :=
  updateOneSet [("_id", Value.vStr budget_id)] update_data budgets

/-- A user object as built by get_user / get_user_by_email: every
document field is copied onto the object, then ficore_credit_balance
is overwritten with int(doc.get('ficore_credit_balance', 0)). -/
structure UserObj where
  attrs : Doc
  ficore_credit_balance : Int
deriving DecidableEq

/-- models.py get_user: find_one by _id; the balance attribute is the
integer truncation of the stored value (0 when absent); any internal
error or miss yields None instead of raising. userFromDoc is the
UserObj construction shared with get_user_by_email. -/
def userFromDoc (doc : Doc) : Option UserObj :=
  match pyInt ((Doc.get doc "ficore_credit_balance").getD (Value.vNum 0)) with
  | some n => some { attrs := doc, ficore_credit_balance := n }
  | none => none

def get_user (users : Except DbErr (List Doc)) (user_id : String) : Option UserObj :=
  match users with
  | .error _ => none
  | .ok docs =>
      (docs.find? (fun d => Doc.get d "_id" == some (Value.vStr user_id))).bind userFromDoc

/-- models.py get_user_by_email: find_one by lowercased email;
otherwise identical to get_user. -/
def get_user_by_email (users : Except DbErr (List Doc)) (email : String) : Option UserObj :=
  match users with
  | .error _ => none
  | .ok docs =>
      (docs.find? (fun d => Doc.get d "email" == some (Value.vStr (pyLower email)))).bind
        userFromDoc

/-- models.py create_user: no required-field validation; a plain
password is popped and replaced by its hash, missing fields are
silently defaulted (created_at, ficore_credit_balance = 10 signup
bonus, role, is_admin, setup_complete), then the document is
inserted. The hash function is passed explicitly; hashPassword is the
password-popping first line of create_user. -/
def hashPassword (hashFn : String → String) (user_data : Doc) : Doc :=
  if Doc.contains user_data "password"
  then Doc.set (Doc.remove user_data "password") "password_hash"
         (Value.vStr (hashFn (pyStr ((Doc.get user_data "password").getD Value.vNull))))
  else user_data

/-- The document create_user inserts: password popped and hashed, the
five setdefault lines applied in source order, and the generated id
added when the caller supplied none. -/
def createdUserDoc (hashFn : String → String) (user_data : Doc) (now : Value)
    (freshId : String) : Doc :=
  insertWithId
    (Doc.setdefault (Doc.setdefault (Doc.setdefault (Doc.setdefault (Doc.setdefault
      (hashPassword hashFn user_data)
      "created_at" now)
      "ficore_credit_balance" (Value.vNum 10))
      "role" (Value.vStr "personal"))
      "is_admin" (Value.vBool false))
      "setup_complete" (Value.vBool false))
    freshId

def create_user (hashFn : String → String) (users : List Doc) (user_data : Doc)
    (now : Value) (freshId : String) : List Doc × String :=
  (users ++ [createdUserDoc hashFn user_data now freshId],
   pyStr ((Doc.get (createdUserDoc hashFn user_data now freshId) "_id").getD Value.vNull))

/-- models.py update_credit_request: stamps updated_at, update_one by
id with $set, returns modified_count > 0 — but any internal error is
swallowed and reported as False. -/
def update_credit_request (requests : List Doc) (request_id : String) (update_data : Doc)
    (now : Value) (dbFail : Bool) : Bool :=
  if dbFail then false
  else (updateOneSet [("_id", Value.vStr request_id)]
          (Doc.set update_data "updated_at" now) requests).2

/-- models.py get_credit_requests: find sorted by created_at
descending — but any internal error is swallowed and reported as an
empty list. -/
def get_credit_requests (find : Except DbErr (List Doc)) : List Doc :=
  match find with
  | .ok docs => sortByNumDesc "created_at" docs
  | .error _ => []

/-- models.py get_ficore_credit_transactions (the second, effective
definition — it shadows the earlier raising one): find sorted by date
descending, any internal error swallowed into an empty list. -/
def get_ficore_credit_transactions (find : Except DbErr (List Doc)) : List Doc :=
  match find with
  | .ok docs => sortByNumDesc "date" docs
  | .error _ => []

/-- models.py log_tool_usage: fire-and-forget audit write; errors are
logged, never raised, and the function always returns None. -/
def log_tool_usage (insert : Except DbErr Unit) : Unit :=
  match insert with
  | .ok _ => ()
  | .error _ => ()

/-- The database-touching repository functions of models.py. -/
inductive RepoFn where
  | get_budgets | get_bills | create_budget | create_bill | create_bill_reminder
  | create_shopping_item | get_shopping_items | update_shopping_item
  | create_shopping_list | get_shopping_lists | update_shopping_list
  | update_user_balance | get_ficore_credit_transactions | delete_shopping_list
  | create_shopping_items_bulk | update_budget | update_bill | update_bill_reminder
  | get_user | get_user_by_email | create_user | create_credit_request
  | update_credit_request | get_credit_requests | create_feedback | log_tool_usage
deriving DecidableEq, Fintype

/-- What a repository function's except clause does with an unexpected
internal error. -/
inductive ErrorBehavior where
  | reraises
  | returnsNone
  | returnsFalse
  | returnsEmptyList
deriving DecidableEq

/-- The except-clause behavior of each repository function, read off
its error handler in models.py (for get_ficore_credit_transactions,
the second definition shadows the first, raising one). -/
def errorBehavior : RepoFn → ErrorBehavior
  | .get_budgets => .reraises
  | .get_bills => .reraises
  | .create_budget => .reraises
  | .create_bill => .reraises
  | .create_bill_reminder => .reraises
  | .create_shopping_item => .reraises
  | .get_shopping_items => .reraises
  | .update_shopping_item => .reraises
  | .create_shopping_list => .reraises
  | .get_shopping_lists => .reraises
  | .update_shopping_list => .reraises
  | .update_user_balance => .reraises
  | .get_ficore_credit_transactions => .returnsEmptyList
  | .delete_shopping_list => .reraises
  | .create_shopping_items_bulk => .reraises
  | .update_budget => .reraises
  | .update_bill => .reraises
  | .update_bill_reminder => .reraises
  | .get_user => .returnsNone
  | .get_user_by_email => .returnsNone
  | .create_user => .reraises
  | .create_credit_request => .reraises
  | .update_credit_request => .returnsFalse
  | .get_credit_requests => .returnsEmptyList
  | .create_feedback => .reraises
  | .log_tool_usage => .returnsNone

theorem insertWithId_absent {d : Doc} (fresh : String) (h : Doc.contains d "_id" = false) :
    insertWithId d fresh = d ++ [("_id", Value.vStr fresh)] := by
  unfold insertWithId
  rw [if_neg (by simp [h])]

theorem get_insertWithId_absent {d : Doc} (fresh : String) (h : Doc.contains d "_id" = false) :
    Doc.get (insertWithId d fresh) "_id" = some (Value.vStr fresh) := by
  rw [insertWithId_absent fresh h, Doc.get_append_right _ h]
  simp [Doc.get]

theorem Doc.get_isSome_of_contains {d : Doc} {k : String} (h : Doc.contains d k = true) :
    ∃ v, Doc.get d k = some v := by
  induction d with
  | nil => simp [Doc.contains] at h
  | cons kv rest ih =>
      by_cases hk : kv.1 = k
      · exact ⟨kv.2, by simp [Doc.get, hk]⟩
      · simp only [Doc.contains, hk, decide_eq_true_eq, Bool.or_eq_true, false_or] at h
        obtain ⟨v, hv⟩ := ih h
        exact ⟨v, by simp [Doc.get, hk, hv]⟩

theorem Doc.get_getD_of_contains {d : Doc} {k : String} (h : Doc.contains d k = true)
    (v₀ : Value) : some ((Doc.get d k).getD v₀) = Doc.get d k := by
  obtain ⟨v, hv⟩ := Doc.get_isSome_of_contains h
  rw [hv]
  rfl

/-- C7 counterexample: get_credit_requests, update_credit_request and
get_ficore_credit_transactions are repository operations other than
get_user / get_user_by_email that swallow an internal error and
return a default value ([], False, []), contradicting the claim that
those two lookups are the only exceptions. -/
theorem claim7_counterexample :
    get_credit_requests (Except.error DbErr.err) = [] ∧
    get_ficore_credit_transactions (Except.error DbErr.err) = [] ∧
    update_credit_request [] "r1" [] Value.vNull true = false ∧
    errorBehavior RepoFn.get_credit_requests ≠ ErrorBehavior.reraises ∧
    errorBehavior RepoFn.update_credit_request ≠ ErrorBehavior.reraises ∧
    errorBehavior RepoFn.get_ficore_credit_transactions ≠ ErrorBehavior.reraises := by
  refine ⟨rfl, rfl, rfl, by decide, by decide, by decide⟩

/-- C7 amended: the repository functions that return a default instead
of re-raising are exactly get_user and get_user_by_email (None),
update_credit_request (False), get_credit_requests and
get_ficore_credit_transactions ([]), and log_tool_usage (None); every
other repository function re-raises after logging. -/
theorem claim7_amended_error_policy :
    (∀ f : RepoFn, errorBehavior f = ErrorBehavior.reraises ↔
        f ∉ ([RepoFn.get_user, RepoFn.get_user_by_email, RepoFn.update_credit_request,
              RepoFn.get_credit_requests, RepoFn.get_ficore_credit_transactions,
              RepoFn.log_tool_usage] : List RepoFn)) ∧
    (∀ uid : String, get_user (Except.error DbErr.err) uid = none) ∧
    (∀ em : String, get_user_by_email (Except.error DbErr.err) em = none) ∧
    get_credit_requests (Except.error DbErr.err) = [] ∧
    get_ficore_credit_transactions (Except.error DbErr.err) = [] ∧
    (∀ (reqs : List Doc) (rid : String) (u : Doc) (now : Value),
        update_credit_request reqs rid u now true = false) ∧
    log_tool_usage (Except.error DbErr.err) = () ∧
    (∀ e : DbErr, get_budgets (Except.error e) = Except.error e) ∧
    (∀ e : DbErr, get_bills (Except.error e) = Except.error e) := by
  refine ⟨by decide, fun _ => rfl, fun _ => rfl, rfl, rfl, fun _ _ _ _ => rfl, rfl,
    fun _ => rfl, fun _ => rfl⟩

/-- C5 counterexample: a successful update_budget leaves the stored
document without any updated_at stamp, and update_shopping_item called
with values identical to the stored ones still returns true (the
stamped timestamp differs from the stored one), against the claim that
every Update stamps a timestamp and returns false on identical
values. -/
theorem claim5_counterexample :
    update_budget [[("_id", Value.vStr "b1"), ("income", Value.vNum 5)]] "b1"
        [("income", Value.vNum 7)]
      = ([[("_id", Value.vStr "b1"), ("income", Value.vNum 7)]], true) ∧
    (update_shopping_item
        [[("_id", Value.vStr "i1"), ("name", Value.vStr "milk"), ("updated_at", Value.vNum 0)]]
        "i1" [("name", Value.vStr "milk")] (Value.vNum 1)).2 = true := by
  refine ⟨by decide, by decide⟩

/-- C5 amended: update_budget merges the given fields with no
timestamp stamping and returns whether the document actually changed
(identical values give false, a changed value gives true, and no
updated_at field ever appears); update_shopping_item stamps
updated_at = now into the update, so the stamped document carries now
and the call returns true whenever now differs from the stored
updated_at, even with otherwise identical values. -/
theorem claim5_amended_update_behavior
    (budgets : List Doc) (bid : String) (upd : Doc) (d : Doc)
    (items : List Doc) (iid : String) (u : Doc) (e : Doc) (now old : Value)
    (hb : budgets.find? (docMatches [("_id", Value.vStr bid)]) = some d)
    (hie : items.find? (docMatches [("_id", Value.vStr iid)]) = some e)
    (hu : Doc.contains u "updated_at" = false)
    (hold : Doc.get e "updated_at" = some old) (hne : old ≠ now) :
    (Doc.setMany d upd = d → update_budget budgets bid upd = (budgets, false)) ∧
    (Doc.setMany d upd ≠ d → (update_budget budgets bid upd).2 = true) ∧
    (Doc.contains upd "updated_at" = false →
      (∀ d' ∈ budgets, Doc.contains d' "updated_at" = false) →
      ∀ d' ∈ (update_budget budgets bid upd).1, Doc.contains d' "updated_at" = false) ∧
    Doc.get (Doc.setMany e (Doc.set u "updated_at" now)) "updated_at" = some now ∧
    (update_shopping_item items iid u now).2 = true := by
  have h4 : Doc.get (Doc.setMany e (Doc.set u "updated_at" now)) "updated_at" = some now := by
    rw [Doc.set_eq_append _ hu, Doc.setMany_append]
    exact Doc.get_set_self _ _ _
  refine ⟨(updateOneSet_of_find_some hb).1, (updateOneSet_of_find_some hb).2, ?_, h4, ?_⟩
  · intro h1 h2
    exact updateOneSet_no_new_key h2 h1
  · refine (updateOneSet_of_find_some hie).2 ?_
    intro heq
    rw [heq, hold] at h4
    simp only [Option.some.injEq] at h4
    exact hne h4

/-- Witness for C5 (amended): a no-op update_budget returns false, and
an identical-values update_shopping_item returns true. -/
theorem claim5_witness :
    update_budget [[("_id", Value.vStr "b1"), ("income", Value.vNum 5)]] "b1"
        [("income", Value.vNum 5)]
      = ([[("_id", Value.vStr "b1"), ("income", Value.vNum 5)]], false) ∧
    (update_shopping_item
        [[("_id", Value.vStr "i1"), ("name", Value.vStr "milk"), ("updated_at", Value.vNum 0)]]
        "i1" [("name", Value.vStr "milk")] (Value.vNum 1)).2 = true := by
  have h := claim5_amended_update_behavior
      [[("_id", Value.vStr "b1"), ("income", Value.vNum 5)]] "b1" [("income", Value.vNum 5)]
      [("_id", Value.vStr "b1"), ("income", Value.vNum 5)]
      [[("_id", Value.vStr "i1"), ("name", Value.vStr "milk"), ("updated_at", Value.vNum 0)]]
      "i1" [("name", Value.vStr "milk")]
      [("_id", Value.vStr "i1"), ("name", Value.vStr "milk"), ("updated_at", Value.vNum 0)]
      (Value.vNum 1) (Value.vNum 0)
      (by decide) (by decide) (by decide) (by decide) (by decide)
  exact ⟨h.1 (by decide), h.2.2.2.2⟩

/-- C6 counterexample: create_user, called with the required field
ficore_credit_balance omitted, does not fail — it silently defaults
the balance to 10, inserts, and returns the id — contradicting the
claim that every entity's Create rejects a missing required field
before any write. -/
theorem claim6_counterexample :
    "ficore_credit_balance" ∈ users_required_fields ∧
    create_user (fun s => s) [] [("user_id", Value.vStr "u1")] (Value.vNum 0) "u1"
      = ([[("user_id", Value.vStr "u1"), ("created_at", Value.vNum 0),
           ("ficore_credit_balance", Value.vNum 10), ("role", Value.vStr "personal"),
           ("is_admin", Value.vBool false), ("setup_complete", Value.vBool false),
           ("_id", Value.vStr "u1")]], "u1") := by
  refine ⟨by decide, by decide⟩

/-- C6 amended: create_budget (like the other create_* functions with
a required-field list) fails with a validation error before any write
when any required field is missing and inserts when all are present;
create_user performs no required-field validation at all and instead
silently defaults missing fields, in particular the schema-required
ficore_credit_balance, to the signup bonus 10. -/
theorem claim6_amended_required_fields
    (budgets : List Doc) (data missingData : Doc) (f : String) (fresh : String)
    (users : List Doc) (udata : Doc) (hashFn : String → String) (now : Value) (ufresh : String)
    (hf : f ∈ budget_required_fields) (hmiss : Doc.contains missingData f = false)
    (hall : budget_required_fields.all (fun g => Doc.contains data g) = true)
    (hid : Doc.contains data "_id" = false)
    (hpw : Doc.contains udata "password" = false)
    (hbal : Doc.contains udata "ficore_credit_balance" = false)
    (huid : Doc.contains udata "_id" = false) :
    create_budget budgets missingData fresh = .error () ∧
    create_budget budgets data fresh
      = .ok (budgets ++ [data ++ [("_id", Value.vStr fresh)]], fresh) ∧
    "ficore_credit_balance" ∈ users_required_fields ∧
    (create_user hashFn users udata now ufresh).2 = ufresh ∧
    (∀ doc ∈ (create_user hashFn users udata now ufresh).1,
        doc ∈ users ∨ Doc.get doc "ficore_credit_balance" = some (Value.vNum 10)) := by
  have hpw' : hashPassword hashFn udata = udata := by
    unfold hashPassword
    rw [if_neg (by simp [hpw])]
  have hc1 : Doc.contains (Doc.setdefault udata "created_at" now) "ficore_credit_balance"
      = false := by
    rw [Doc.contains_setdefault_ne _ _ _ _ (by decide)]
    exact hbal
  have hg2 : Doc.get (Doc.setdefault (Doc.setdefault udata "created_at" now)
      "ficore_credit_balance" (Value.vNum 10)) "ficore_credit_balance"
      = some (Value.vNum 10) :=
    Doc.get_setdefault_self_absent _ hc1
  have hg5 : Doc.get (Doc.setdefault (Doc.setdefault (Doc.setdefault (Doc.setdefault
      (Doc.setdefault udata "created_at" now) "ficore_credit_balance" (Value.vNum 10))
      "role" (Value.vStr "personal")) "is_admin" (Value.vBool false))
      "setup_complete" (Value.vBool false)) "ficore_credit_balance"
      = some (Value.vNum 10) := by
    rw [Doc.get_setdefault_ne _ _ _ _ (by decide), Doc.get_setdefault_ne _ _ _ _ (by decide),
        Doc.get_setdefault_ne _ _ _ _ (by decide)]
    exact hg2
  have hid5 : Doc.contains (Doc.setdefault (Doc.setdefault (Doc.setdefault (Doc.setdefault
      (Doc.setdefault udata "created_at" now) "ficore_credit_balance" (Value.vNum 10))
      "role" (Value.vStr "personal")) "is_admin" (Value.vBool false))
      "setup_complete" (Value.vBool false)) "_id" = false := by
    rw [Doc.contains_setdefault_ne _ _ _ _ (by decide),
        Doc.contains_setdefault_ne _ _ _ _ (by decide),
        Doc.contains_setdefault_ne _ _ _ _ (by decide),
        Doc.contains_setdefault_ne _ _ _ _ (by decide),
        Doc.contains_setdefault_ne _ _ _ _ (by decide)]
    exact huid
  have hcud : createdUserDoc hashFn udata now ufresh
      = (Doc.setdefault (Doc.setdefault (Doc.setdefault (Doc.setdefault
          (Doc.setdefault udata "created_at" now) "ficore_credit_balance" (Value.vNum 10))
          "role" (Value.vStr "personal")) "is_admin" (Value.vBool false))
          "setup_complete" (Value.vBool false)) ++ [("_id", Value.vStr ufresh)] := by
    unfold createdUserDoc
    rw [hpw']
    exact insertWithId_absent _ hid5
  have hgid : Doc.get (createdUserDoc hashFn udata now ufresh) "_id"
      = some (Value.vStr ufresh) := by
    unfold createdUserDoc
    rw [hpw']
    exact get_insertWithId_absent _ hid5
  refine ⟨?_, ?_, by decide, ?_, ?_⟩
  · have hnotall : ¬(budget_required_fields.all (fun g => Doc.contains missingData g) = true) := by
      intro hcontra
      have := List.all_eq_true.mp hcontra f hf
      rw [hmiss] at this
      exact Bool.false_ne_true this
    unfold create_budget
    rw [if_neg hnotall]
  · unfold create_budget
    rw [if_pos hall, insertWithId_absent _ hid, Doc.get_append_right _ hid]
    simp [Doc.get, pyStr]
  · show pyStr ((Doc.get (createdUserDoc hashFn udata now ufresh) "_id").getD Value.vNull)
        = ufresh
    rw [hgid]
    rfl
  · intro doc hdoc
    have hdoc' : doc ∈ users ++ [createdUserDoc hashFn udata now ufresh] := hdoc
    rcases List.mem_append.mp hdoc' with hmem | hmem
    · exact Or.inl hmem
    · right
      rw [List.mem_singleton.mp hmem, hcud]
      exact Doc.get_append_left _ hg5

/-- Witness for C6 (amended): create_budget rejects a budget missing
income and accepts a complete one; create_user silently defaults the
omitted required balance field to 10. -/
theorem claim6_witness :
    create_budget [] [("user_id", Value.vStr "u1")] "b1" = .error () ∧
    create_budget []
        [("user_id", Value.vStr "u1"), ("income", Value.vNum 3),
         ("fixed_expenses", Value.vNum 1), ("variable_expenses", Value.vNum 1),
         ("created_at", Value.vNum 0)] "b1"
      = .ok ([[("user_id", Value.vStr "u1"), ("income", Value.vNum 3),
               ("fixed_expenses", Value.vNum 1), ("variable_expenses", Value.vNum 1),
               ("created_at", Value.vNum 0), ("_id", Value.vStr "b1")]], "b1") ∧
    (create_user (fun s => s) [] [("user_id", Value.vStr "u1")] (Value.vNum 0) "u1").2 = "u1" := by
  have h := claim6_amended_required_fields []
      [("user_id", Value.vStr "u1"), ("income", Value.vNum 3),
       ("fixed_expenses", Value.vNum 1), ("variable_expenses", Value.vNum 1),
       ("created_at", Value.vNum 0)]
      [("user_id", Value.vStr "u1")] "income" "b1"
      [] [("user_id", Value.vStr "u1")] (fun s => s) (Value.vNum 0) "u1"
      (by decide) (by decide) (by decide) (by decide) (by decide) (by decide) (by decide)
  exact ⟨h.1, h.2.1, h.2.2.2.1⟩

theorem filter_eq_nil_of_forall {p : Doc → Bool} {l : List Doc} (h : ∀ d ∈ l, p d = false) :
    l.filter p = [] := by
  induction l with
  | nil => rfl
  | cons d rest ih =>
      simp [List.filter, h d (List.mem_cons_self _ _),
        ih (fun x hx => h x (List.mem_cons_of_mem _ hx))]

/-- A shopping item input with all required fields and no unit. -/
def itemC8 : Doc :=
  [("user_id", Value.vStr "u"), ("list_id", Value.vStr "l1"), ("name", Value.vStr "milk"),
   ("quantity", Value.vNum 2), ("price", Value.vNum 5), ("category", Value.vStr "dairy"),
   ("status", Value.vStr "to_buy"), ("created_at", Value.vNum 3), ("updated_at", Value.vNum 3)]

/-- C8 counterexample: a shopping item created with unit omitted is
stored (and read back) with unit = piece, but its to_dict_shopping_item
projection carries no unit key at all, so the projection does not equal
the input fields plus system-assigned defaults as the claim states. -/
theorem claim8_counterexample :
    create_shopping_item [] itemC8 "i1"
      = .ok ([itemC8 ++ [("unit", Value.vStr "piece"), ("_id", Value.vStr "i1")]], "i1") ∧
    Doc.get (itemC8 ++ [("unit", Value.vStr "piece"), ("_id", Value.vStr "i1")]) "unit"
      = some (Value.vStr "piece") ∧
    Doc.contains (to_dict_shopping_item
        (itemC8 ++ [("unit", Value.vStr "piece"), ("_id", Value.vStr "i1")])) "unit" = false := by
  refine ⟨by decide, by decide, by decide⟩

/-- C8 amended: Create followed by Read returns the raw stored
document — the input fields plus unit = piece when omitted and the
generated id — and on the raw document every input field and the
defaulted unit are visible; the to_dict_shopping_item projection
preserves the input fields but omits the unit field entirely. -/
theorem claim8_amended_roundtrip (items : List Doc) (data : Doc) (fresh : String)
    (hreq : shopping_item_required_fields.all (fun f => Doc.contains data f) = true)
    (hunit : Doc.contains data "unit" = false)
    (hid : Doc.contains data "_id" = false)
    (hfresh : ∀ d ∈ items, Doc.get d "_id" ≠ some (Value.vStr fresh)) :
    create_shopping_item items data fresh
      = .ok (items ++ [createdShoppingItemDoc data fresh], fresh) ∧
    get_shopping_items (items ++ [createdShoppingItemDoc data fresh])
        [("_id", Value.vStr fresh)] = [createdShoppingItemDoc data fresh] ∧
    Doc.get (createdShoppingItemDoc data fresh) "unit" = some (Value.vStr "piece") ∧
    Doc.contains (to_dict_shopping_item (createdShoppingItemDoc data fresh)) "unit" = false ∧
    ∀ f ∈ shopping_item_required_fields,
      Doc.get (to_dict_shopping_item (createdShoppingItemDoc data fresh)) f
        = Doc.get data f := by
  have hsetform : Doc.set data "unit" ((Doc.get data "unit").getD (Value.vStr "piece"))
      = data ++ [("unit", Value.vStr "piece")] := by
    rw [Doc.get_eq_none_of_not_contains hunit]
    exact Doc.set_eq_append _ hunit
  have hcid : Doc.contains
      (Doc.set data "unit" ((Doc.get data "unit").getD (Value.vStr "piece"))) "_id" = false := by
    rw [Doc.contains_set_ne _ _ _ _ (by decide)]
    exact hid
  have hnd : createdShoppingItemDoc data fresh
      = (data ++ [("unit", Value.vStr "piece")]) ++ [("_id", Value.vStr fresh)] := by
    unfold createdShoppingItemDoc
    rw [insertWithId_absent _ hcid, hsetform]
  have hndid : Doc.get (createdShoppingItemDoc data fresh) "_id"
      = some (Value.vStr fresh) := by
    unfold createdShoppingItemDoc
    exact get_insertWithId_absent _ hcid
  have hnd_ne : ∀ f : String, "unit" ≠ f → "_id" ≠ f →
      Doc.get (createdShoppingItemDoc data fresh) f = Doc.get data f := by
    intro f h1 h2
    rw [hnd, Doc.get_append_singleton_ne _ _ _ _ h2, Doc.get_append_singleton_ne _ _ _ _ h1]
  have hndunit : Doc.get (createdShoppingItemDoc data fresh) "unit"
      = some (Value.vStr "piece") := by
    rw [hnd, Doc.get_append_singleton_ne _ _ _ _ (by decide), Doc.get_append_right _ hunit]
    rfl
  have hne : (createdShoppingItemDoc data fresh).isEmpty = false := by
    rw [hnd]
    cases data with
    | nil => rfl
    | cons a l => rfl
  refine ⟨?_, ?_, hndunit, ?_, ?_⟩
  · unfold create_shopping_item
    rw [if_pos hreq, hndid]
    rfl
  · have hmatch_nd : docMatches [("_id", Value.vStr fresh)] (createdShoppingItemDoc data fresh)
        = true := by
      unfold docMatches
      simp [List.all, hndid]
    have hmatch_old : ∀ d ∈ items, docMatches [("_id", Value.vStr fresh)] d = false := by
      intro d hd
      unfold docMatches
      cases hbeq : (Doc.get d "_id" == some (Value.vStr fresh)) with
      | false => simp [List.all, hbeq]
      | true => exact absurd (eq_of_beq hbeq) (hfresh d hd)
    unfold get_shopping_items
    rw [List.filter_append, filter_eq_nil_of_forall hmatch_old]
    have h2 : [createdShoppingItemDoc data fresh].filter
        (docMatches [("_id", Value.vStr fresh)]) = [createdShoppingItemDoc data fresh] := by
      simp [List.filter, hmatch_nd]
    rw [h2]
    rfl
  · unfold to_dict_shopping_item
    rw [if_neg (by simp [hne])]
    rfl
  · intro f hf
    unfold to_dict_shopping_item
    rw [if_neg (by simp [hne])]
    fin_cases hf
    · show some ((Doc.get (createdShoppingItemDoc data fresh) "user_id").getD (Value.vStr ""))
          = Doc.get data "user_id"
      rw [hnd_ne _ (by decide) (by decide)]
      exact Doc.get_getD_of_contains (List.all_eq_true.mp hreq _ (by decide)) _
    · show some ((Doc.get (createdShoppingItemDoc data fresh) "list_id").getD (Value.vStr ""))
          = Doc.get data "list_id"
      rw [hnd_ne _ (by decide) (by decide)]
      exact Doc.get_getD_of_contains (List.all_eq_true.mp hreq _ (by decide)) _
    · show some ((Doc.get (createdShoppingItemDoc data fresh) "name").getD (Value.vStr ""))
          = Doc.get data "name"
      rw [hnd_ne _ (by decide) (by decide)]
      exact Doc.get_getD_of_contains (List.all_eq_true.mp hreq _ (by decide)) _
    · show some ((Doc.get (createdShoppingItemDoc data fresh) "quantity").getD (Value.vNum 0))
          = Doc.get data "quantity"
      rw [hnd_ne _ (by decide) (by decide)]
      exact Doc.get_getD_of_contains (List.all_eq_true.mp hreq _ (by decide)) _
    · show some ((Doc.get (createdShoppingItemDoc data fresh) "price").getD (Value.vNum 0))
          = Doc.get data "price"
      rw [hnd_ne _ (by decide) (by decide)]
      exact Doc.get_getD_of_contains (List.all_eq_true.mp hreq _ (by decide)) _
    · show some ((Doc.get (createdShoppingItemDoc data fresh) "category").getD (Value.vStr ""))
          = Doc.get data "category"
      rw [hnd_ne _ (by decide) (by decide)]
      exact Doc.get_getD_of_contains (List.all_eq_true.mp hreq _ (by decide)) _
    · show some ((Doc.get (createdShoppingItemDoc data fresh) "status").getD (Value.vStr ""))
          = Doc.get data "status"
      rw [hnd_ne _ (by decide) (by decide)]
      exact Doc.get_getD_of_contains (List.all_eq_true.mp hreq _ (by decide)) _
    · show some ((Doc.get (createdShoppingItemDoc data fresh) "created_at").getD Value.vNull)
          = Doc.get data "created_at"
      rw [hnd_ne _ (by decide) (by decide)]
      exact Doc.get_getD_of_contains (List.all_eq_true.mp hreq _ (by decide)) _
    · show some ((Doc.get (createdShoppingItemDoc data fresh) "updated_at").getD Value.vNull)
          = Doc.get data "updated_at"
      rw [hnd_ne _ (by decide) (by decide)]
      exact Doc.get_getD_of_contains (List.all_eq_true.mp hreq _ (by decide)) _

/-- Witness for C8 (amended): the concrete item round-trips with
unit = piece on the raw document while its projection lacks unit. -/
theorem claim8_witness :
    create_shopping_item [] itemC8 "i1"
      = .ok ([createdShoppingItemDoc itemC8 "i1"], "i1") ∧
    get_shopping_items [createdShoppingItemDoc itemC8 "i1"] [("_id", Value.vStr "i1")]
      = [createdShoppingItemDoc itemC8 "i1"] ∧
    Doc.get (createdShoppingItemDoc itemC8 "i1") "unit" = some (Value.vStr "piece") ∧
    Doc.contains (to_dict_shopping_item (createdShoppingItemDoc itemC8 "i1")) "unit"
      = false := by
  have h := claim8_amended_roundtrip [] itemC8 "i1" (by decide) (by decide) (by decide)
      (by simp)
  exact ⟨h.1, h.2.1, h.2.2.1, h.2.2.2.1⟩

theorem userFromDoc_num {doc : Doc} {q : ℚ}
    (h : Doc.get doc "ficore_credit_balance" = some (Value.vNum q)) :
    userFromDoc doc = some { attrs := doc, ficore_credit_balance := ratTrunc q } := by
  unfold userFromDoc
  rw [h]
  rfl

theorem userFromDoc_absent {doc : Doc}
    (h : Doc.get doc "ficore_credit_balance" = none) :
    userFromDoc doc = some { attrs := doc, ficore_credit_balance := 0 } := by
  unfold userFromDoc
  rw [h]
  have h0 : ratTrunc 0 = 0 := by decide
  simp [pyInt, h0]

/-- C9: a user document found by get_user (or get_user_by_email) is
returned with ficore_credit_balance equal to the integer truncation of
the stored value, or 0 when the field is absent, even though the users
collection validator declares the field a double with minimum 0. -/
theorem claim9_balance_truncation (users : List Doc) (uid em : String)
    (da dbm : Doc) (q : ℚ)
    (hfa : users.find? (fun d => Doc.get d "_id" == some (Value.vStr uid)) = some da)
    (hq : Doc.get da "ficore_credit_balance" = some (Value.vNum q))
    (hfb : users.find? (fun d => Doc.get d "email" == some (Value.vStr (pyLower em)))
        = some dbm)
    (hnone : Doc.get dbm "ficore_credit_balance" = none) :
    get_user (.ok users) uid = some { attrs := da, ficore_credit_balance := ratTrunc q } ∧
    get_user_by_email (.ok users) em = some { attrs := dbm, ficore_credit_balance := 0 } ∧
    ("ficore_credit_balance", "double") ∈ users_validator_types ∧
    ("ficore_credit_balance", (0 : ℚ)) ∈ users_validator_minimums := by
  refine ⟨?_, ?_, by decide, by decide⟩
  · show (users.find? (fun d => Doc.get d "_id" == some (Value.vStr uid))).bind userFromDoc
        = some { attrs := da, ficore_credit_balance := ratTrunc q }
    rw [hfa]
    show userFromDoc da = some { attrs := da, ficore_credit_balance := ratTrunc q }
    exact userFromDoc_num hq
  · show (users.find? (fun d => Doc.get d "email" == some (Value.vStr (pyLower em)))).bind
        userFromDoc = some { attrs := dbm, ficore_credit_balance := 0 }
    rw [hfb]
    show userFromDoc dbm = some { attrs := dbm, ficore_credit_balance := 0 }
    exact userFromDoc_absent hnone

/-- A stored user document with the fractional balance 7/2. -/
def userDocA : Doc :=
  [("_id", Value.vStr "u1"), ("email", Value.vStr "a@x"),
   ("ficore_credit_balance", Value.vNum (Rat.mk' 7 2))]

/-- A stored user document with no balance field. -/
def userDocB : Doc :=
  [("_id", Value.vStr "u2"), ("email", Value.vStr "b@x")]

/-- The users collection for the C9 witness. -/
def usersC9 : List Doc := [userDocA, userDocB]

/-- Witness for C9: a stored balance of 7/2 is read back as the
integer 3, and a document without the field is read back as 0. -/
theorem claim9_witness :
    get_user (.ok usersC9) "u1"
      = some { attrs := userDocA, ficore_credit_balance := 3 } ∧
    get_user_by_email (.ok usersC9) "b@x"
      = some { attrs := userDocB, ficore_credit_balance := 0 } := by
  have h := claim9_balance_truncation usersC9 "u1" "b@x" userDocA userDocB (Rat.mk' 7 2)
      (by decide) (by decide) (by decide) (by decide)
  refine ⟨?_, h.2.1⟩
  rw [h.1]
  decide

/-- Full behavior of create_shopping_list on valid input: the document
with the caller _id overwritten by the fresh uuid and items backfilled
is inserted, but the call ends in the re-raised AttributeError from
get_shopping_lists.cache_clear() instead of returning the uuid. -/
theorem create_shopping_list_characterization (lists : List Doc) (data : Doc) (fresh : String)
    (hreq : shopping_list_required_fields.all (fun f => Doc.contains data f) = true) :
    create_shopping_list lists data fresh
      = (lists ++ [createdShoppingListDoc data fresh], .error PyErr.attributeError) ∧
    Doc.get (createdShoppingListDoc data fresh) "_id" = some (Value.vStr fresh) ∧
    (Doc.contains data "items" = false →
      Doc.get (createdShoppingListDoc data fresh) "items" = some (Value.vList [])) ∧
    (∀ v : Value, Doc.get data "items" = some v →
      Doc.get (createdShoppingListDoc data fresh) "items" = some v) := by
  refine ⟨?_, ?_, ?_, ?_⟩
  · unfold create_shopping_list
    rw [if_pos hreq]
  · unfold createdShoppingListDoc
    rw [Doc.get_set_ne _ _ _ _ (by decide)]
    exact Doc.get_set_self _ _ _
  · intro hno
    unfold createdShoppingListDoc
    rw [Doc.get_set_self, Doc.get_set_ne _ _ _ _ (by decide),
        Doc.get_eq_none_of_not_contains hno]
    rfl
  · intro v hv
    unfold createdShoppingListDoc
    rw [Doc.get_set_self, Doc.get_set_ne _ _ _ _ (by decide), hv]
    rfl

/-- A shopping list input that already carries a caller _id and no
items field. -/
def listC10 : Doc :=
  [("_id", Value.vStr "caller-id"), ("name", Value.vStr "Groceries"),
   ("session_id", Value.vStr "s1"), ("budget", Value.vNum 100),
   ("created_at", Value.vNum 0), ("updated_at", Value.vNum 0),
   ("total_spent", Value.vNum 0), ("status", Value.vStr "active")]

/-- C10, code bug: create_shopping_list does overwrite the
caller-supplied _id with the fresh uuid and backfills items = [] in
the inserted document, and items is indeed outside the required-field
check — but the call then raises AttributeError at
get_shopping_lists.cache_clear() (models.py line 570), so the uuid is
never returned as the claim and the function docstring state. -/
theorem claim10_insert_then_raise :
    create_shopping_list [] listC10 "uuid-1"
      = ([createdShoppingListDoc listC10 "uuid-1"], .error PyErr.attributeError) ∧
    Doc.get (createdShoppingListDoc listC10 "uuid-1") "_id" = some (Value.vStr "uuid-1") ∧
    Doc.get (createdShoppingListDoc listC10 "uuid-1") "items" = some (Value.vList []) ∧
    "items" ∉ shopping_list_required_fields := by
  refine ⟨by decide, by decide, by decide, by decide⟩

/-- A shopping item referencing list l1. -/
def itemL1 : Doc := [("_id", Value.vStr "i1"), ("list_id", Value.vStr "l1")]

/-- A shopping item referencing the unrelated list l2. -/
def itemL2 : Doc := [("_id", Value.vStr "i2"), ("list_id", Value.vStr "l2")]

/-- State for the C1 witness: one list, one item of it, one foreign item. -/
def dbC1 : ShoppingDb :=
  { shopping_lists := [[("_id", Value.vStr "l1"), ("name", Value.vStr "Groceries")]],
    shopping_items := [itemL1, itemL2] }

/-- C1, code bug: on the matching list the source performs both
deletes (they are not session-bound, so they persist) and then raises
AttributeError at get_shopping_lists.cache_clear() (models.py line
744), never returning True as the claim and the function docstring
state; the not-found path does return False without touching any
item. -/
theorem claim1_delete_then_raise :
    delete_shopping_list dbC1 "l1" none none
      = ({ shopping_lists := [], shopping_items := [itemL2] },
         .error PyErr.attributeError) ∧
    delete_shopping_list dbC1 "l9" none none = (dbC1, .ok false) := by
  refine ⟨by decide, by decide⟩

/-- A users snapshot whose user_id index lacks the declared unique
option, forcing the drop-and-recreate branch on the next run. -/
def snapC4 : List LiveIndex :=
  [{ name := "_id_", key := [("_id", ASCENDING)], info := [("v", Value.vNum 2)] },
   { name := "user_id_1", key := [("user_id", ASCENDING)], info := [("v", Value.vNum 2)] }]

/-- Witness for C4: even a run that must drop and recreate the
mismatched user_id index never drops the primary identifier index,
which survives in the live state. -/
theorem claim4_witness :
    "_id_" ∉ (reconcileIndexes snapC4 users_indexes).drops ∧
    ({ name := "_id_", key := [("_id", ASCENDING)], info := [("v", Value.vNum 2)] } : LiveIndex)
      ∈ (reconcileIndexes snapC4 users_indexes).live := by
  have h := claim4_never_drops_primary_index snapC4 users_indexes
  exact ⟨h.1, h.2 _ (by decide) rfl⟩
